import Mathlib

/-!
Shallow embedding of the chkobba companion app (src/App.tsx,
src/components/DrawingBoard.tsx, src/types.ts): browser-storage session
management, the cloud signaling exchange over the public relay, the manual
(offline) descriptor exchange, the peer data-channel messages, and the
drawing-board capture logic, together with theorems checking the
specification's claims against these definitions.
-/

namespace Chkobba

/-- Model of JavaScript's String.prototype.endsWith, computed over the
character data of the strings (used by the relay message handlers to
dispatch on topic suffixes). -/
def strEndsWith (s suffix : String) : Bool := suffix.data.isSuffixOf s.data

/-- Connection mode (App.tsx `type Mode`). -/
inductive Mode
  | CLOUD
  | MANUAL
  deriving DecidableEq, Repr

/-- Side of the connection (App.tsx `type Role`). -/
inductive Role
  | HOST
  | JOINER
  deriving DecidableEq, Repr

/-- Top-level view of the app (App.tsx `type ViewState`). -/
inductive ViewState
  | HOME
  | HOST_LOBBY
  | JOIN_LOBBY
  | MANUAL_HOST
  | MANUAL_JOIN
  | GAME
  deriving DecidableEq, Repr

/-- Persisted session record (App.tsx `interface SessionData`). Timestamps
are integer milliseconds, as returned by Date.now(). -/
structure SessionData where
  mode : Mode
  role : Role
  code : String
  timestamp : Int
  deriving DecidableEq, Repr

/-- The manual-mode text backup written under 'chkobba_manual_state'
(App.tsx, the effect at lines 119-123). -/
structure ManualBackup where
  localOffer : String
  remoteAnswer : String
  deriving DecidableEq, Repr

/-- A value held in browser localStorage. JSON (de)serialization is embedded
structurally: `sess` and `manual` are well-formed serialized records, and
`corrupt` is a stored string that does not parse back into the expected
record (JSON.parse throws or yields the wrong shape). -/
inductive StoredValue
  | sess (s : SessionData)
  | manual (m : ManualBackup)
  | corrupt (raw : String)
  deriving DecidableEq, Repr

/-- Browser localStorage, as a key-to-value map. -/
def Store := String → Option StoredValue

/-- Model of localStorage.setItem. -/
def setItem (st : Store) (k : String) (v : StoredValue) : Store :=
  fun q => if q = k then some v else st q

/-- Model of localStorage.removeItem. -/
def removeItem (st : Store) (k : String) : Store :=
  fun q => if q = k then none else st q

/-- Storage holding no keys. -/
def emptyStore : Store := fun _ => none

/-- App.tsx `saveSession`: writes {mode, role, code, timestamp: Date.now()}
under the key 'chkobba_session'. -/
def saveSession (st : Store) (mode : Mode) (role : Role) (code : String) (now : Int) : Store :=
  setItem st "chkobba_session" (.sess ⟨mode, role, code, now⟩)

/-- App.tsx effect at lines 119-123: while in a manual view, back up the
typed descriptor text under 'chkobba_manual_state'. -/
def saveManualBackup (st : Store) (v : ViewState) (localOffer remoteAnswer : String) : Store :=
  if v = .MANUAL_HOST ∨ v = .MANUAL_JOIN then
    setItem st "chkobba_manual_state" (.manual ⟨localOffer, remoteAnswer⟩)
  else st

/-- App.tsx `clearSession`: removes 'chkobba_session' and
'chkobba_manual_state'. -/
def clearSession (st : Store) : Store :=
  removeItem (removeItem st "chkobba_session") "chkobba_manual_state"

/-- Parsing a stored value back into a session record; `none` models
JSON.parse throwing or the stored value not being a session record. -/
def parseSessionValue : StoredValue → Option SessionData
  | .sess s => some s
  | _ => none

/-- Parsing a stored value back into a manual backup record. -/
def parseManualValue : StoredValue → Option ManualBackup
  | .manual m => some m
  | _ => none

/-- What the restore-session effect decides to do on startup. -/
inductive RestoreAction
  | noAction
  | reconnectHost (code : String)
  | reconnectJoiner (code : String)
  | showManual (role : Role) (backup : ManualBackup)
  deriving DecidableEq, Repr

/-- The 2-hour freshness bound, in milliseconds (App.tsx line 77). -/
def sessionMaxAgeMs : Int := 2 * 60 * 60 * 1000

/-- App.tsx restore-session effect (lines 71-109): read 'chkobba_session';
on parse failure clear both keys; if fresh, reconnect (cloud) or restore the
manual view from 'chkobba_manual_state'; if stale, clear both keys. -/
def restoreSession (st : Store) (now : Int) : RestoreAction × Store :=
  match st "chkobba_session" with
  | none => (.noAction, st)
  | some v =>
    match parseSessionValue v with
    | none => (.noAction, clearSession st)
    | some session =>
      if now - session.timestamp < sessionMaxAgeMs then
        match session.mode with
        | .CLOUD =>
          (if session.role = .HOST then .reconnectHost session.code
           else .reconnectJoiner session.code, st)
        | .MANUAL =>
          match st "chkobba_manual_state" with
          | none => (.noAction, st)
          | some mv =>
            match parseManualValue mv with
            | none => (.noAction, clearSession st)
            | some m => (.showManual session.role m, st)
      else (.noAction, clearSession st)

/-- A normalized drawing point (types.ts `Point`); coordinates are
rationals standing in for JavaScript numbers. -/
structure Point where
  x : ℚ
  y : ℚ
  deriving DecidableEq, Repr

/-- A drawn stroke (types.ts `Stroke`). -/
structure Stroke where
  id : String
  points : List Point
  color : String
  isRemote : Bool
  deriving DecidableEq, Repr

/-- A message sent over the peer data channel, one constructor per send
site in App.tsx: SYNC_STROKE (handleStrokeComplete), CLEAR_BOARD
(clearBoard), PING (triggerPing), HEARTBEAT (the interval at lines
143-149). -/
inductive PeerMsg
  | syncStroke (s : Stroke)
  | clearBoard
  | ping
  | heartbeat
  deriving DecidableEq, Repr

/-- The `type` field of the serialized JSON object for each peer message. -/
def PeerMsg.typeName : PeerMsg → String
  | .syncStroke _ => "SYNC_STROKE"
  | .clearBoard => "CLEAR_BOARD"
  | .ping => "PING"
  | .heartbeat => "HEARTBEAT"

/-- App.tsx `sendSync`: sends the message only when the data channel is
open; the result is the list of messages actually sent. -/
def sendSync (channelOpen : Bool) (m : PeerMsg) : List PeerMsg :=
  if channelOpen then [m] else []

/-- One firing of the heartbeat interval (App.tsx lines 143-149): sends
{type: 'HEARTBEAT'} when the channel is open. -/
def heartbeatTick (channelOpen : Bool) : List PeerMsg :=
  if channelOpen then [.heartbeat] else []

/-- Color given to locally drawn strokes (App.tsx line 278). -/
def localStrokeColor : String := "#3b82f6"

/-- Color given to strokes received from the peer (App.tsx line 258). -/
def remoteStrokeColor : String := "#22c55e"

/-- App.tsx `handleStrokeComplete`: wrap the captured points into a stroke,
append it to the strokes list, and send it as SYNC_STROKE. -/
def handleStrokeComplete (channelOpen : Bool) (id : String) (points : List Point)
    (strokes : List Stroke) : List Stroke × List PeerMsg :=
  let s : Stroke := ⟨id, points, localStrokeColor, false⟩
  (strokes ++ [s], sendSync channelOpen (.syncStroke s))

/-- App.tsx `clearBoard`: empty the strokes list and send CLEAR_BOARD. -/
def clearBoardAction (channelOpen : Bool) : List Stroke × List PeerMsg :=
  ([], sendSync channelOpen .clearBoard)

/-- App.tsx `triggerPing`: send PING. -/
def triggerPing (channelOpen : Bool) : List PeerMsg :=
  sendSync channelOpen .ping

/-- Raw data arriving on the peer data channel: either a string that is not
valid JSON, or a JSON object with a `type` field and an optional stroke. -/
inductive RawData
  | notJson (raw : String)
  | json (mtype : String) (stroke : Option Stroke)
  deriving DecidableEq, Repr

/-- Observable side effect of handling an incoming data-channel message. -/
inductive UIEffect
  | flashPing
  deriving DecidableEq, Repr

/-- App.tsx `setupDataChannel`'s channel.onmessage handler (lines 254-265):
the whole body is inside try/catch, so a parse failure leaves everything
unchanged; SYNC_STROKE with a stroke appends it (marked remote, recolored),
CLEAR_BOARD empties the list, PING triggers the flash, anything else is
ignored. -/
def dcOnMessage (strokes : List Stroke) (d : RawData) : List Stroke × List UIEffect :=
  match d with
  | .notJson _ => (strokes, [])
  | .json mtype stroke? =>
    if mtype = "SYNC_STROKE" then
      match stroke? with
      | some s => (strokes ++ [{ s with isRemote := true, color := remoteStrokeColor }], [])
      | none => (strokes, [])
    else if mtype = "CLEAR_BOARD" then ([], [])
    else if mtype = "PING" then (strokes, [.flashPing])
    else (strokes, [])

/-- Connection-related application state touched by the open/connected
handlers. -/
structure ConnState where
  connStatus : String
  appView : ViewState
  mqttEnded : Bool
  isReconnecting : Bool
  strokes : List Stroke
  deriving DecidableEq, Repr

/-- App.tsx `setupDataChannel`'s channel.onopen handler (lines 250-253):
sets the status and switches to the game view; the second component is the
list of peer messages the handler sends. -/
def dcOnOpen (s : ConnState) : ConnState × List PeerMsg :=
  ({ s with connStatus := "Connected", appView := .GAME }, [])

/-- App.tsx `initPC`'s onconnectionstatechange handler in the 'connected'
case (lines 221-225): sets status/view, stops reconnecting, ends the relay
client; the second component is the list of peer messages sent. -/
def pcOnConnected (s : ConnState) : ConnState × List PeerMsg :=
  ({ s with connStatus := "Connected", appView := .GAME,
            isReconnecting := false, mqttEnded := true }, [])

/-- An opaque WebRTC session descriptor (offer or answer SDP). -/
structure Desc where
  sdp : String
  deriving DecidableEq, Repr

/-- A message arriving over the relay: a string that is not valid JSON, a
valid serialized descriptor, or some other JSON value that is not a usable
descriptor. -/
inductive RawMsg
  | notJson (raw : String)
  | descMsg (d : Desc)
  | otherJson (raw : String)
  deriving DecidableEq, Repr

/-- Relay topic for a room code and suffix: chkobba/<code>/<suffix>. -/
def roomTopic (code suffix : String) : String := "chkobba/" ++ code ++ "/" ++ suffix

/-- Topic chkobba/<code>/join. -/
def joinTopic (code : String) : String := roomTopic code "join"

/-- Topic chkobba/<code>/offer. -/
def offerTopic (code : String) : String := roomTopic code "offer"

/-- Topic chkobba/<code>/answer. -/
def answerTopic (code : String) : String := roomTopic code "answer"

/-- Topic chkobba/<code>/restart. -/
def restartTopic (code : String) : String := roomTopic code "restart"

/-- A publish call made on the relay client: topic and payload. -/
structure PubRec where
  topic : String
  payload : String
  deriving DecidableEq, Repr

/-- An event delivered to the joiner's relay client: the 'connect' callback
or an incoming message on a subscribed topic. -/
inductive JoinerEvent
  | connect
  | recv (topic : String) (msg : RawMsg)
  deriving DecidableEq, Repr

/-- Observable state of the cloud joiner (App.tsx `connectCloudJoiner`):
the publishes made so far, in order, and whether the remote description has
been set and a local answer created. -/
structure JoinerState where
  published : List PubRec
  remoteDescSet : Bool
  localAnswerSet : Bool
  deriving DecidableEq, Repr

/-- Joiner state right after connectCloudJoiner sets up the fresh peer
connection and relay client. -/
def initJoiner : JoinerState := ⟨[], false, false⟩

/-- Topics the joiner subscribes to in its 'connect' callback. -/
def joinerSubscriptions (code : String) : List String :=
  [offerTopic code, restartTopic code]

/-- One invocation of the joiner's relay callbacks (App.tsx lines 369-409).
On 'connect' it publishes a join request. On a message it dispatches on the
topic suffix: restart republishes join; offer parses the message
(JSON.parse is not wrapped in try/catch here, so `.error` models the
exception escaping the handler on a malformed or unusable message), then
sets the remote description, creates and sets the local answer, and
publishes the answer. -/
def joinerHandle (code : String) (answer : Desc) (s : JoinerState) :
    JoinerEvent → Except Unit JoinerState
  | .connect => .ok { s with published := s.published ++ [⟨joinTopic code, "hello"⟩] }
  | .recv t m =>
    if strEndsWith t "/restart" then
      .ok { s with published := s.published ++ [⟨joinTopic code, "hello_again"⟩] }
    else if strEndsWith t "/offer" then
      match m with
      | .descMsg _ =>
        .ok { s with remoteDescSet := true, localAnswerSet := true,
                     published := s.published ++ [⟨answerTopic code, answer.sdp⟩] }
      | _ => .error ()
    else .ok s

/-- The browser event loop around one joiner callback: an exception thrown
by the handler is an unhandled rejection, the client keeps its state and
continues with the next event. -/
def joinerStep (code : String) (answer : Desc) (s : JoinerState) (e : JoinerEvent) : JoinerState :=
  match joinerHandle code answer s e with
  | .ok s2 => s2
  | .error _ => s

/-- Run of the joiner over a sequence of relay events from the initial
state. -/
def joinerRun (code : String) (answer : Desc) (events : List JoinerEvent) : JoinerState :=
  events.foldl (joinerStep code answer) initJoiner

/-- Whether an event is the reception of a message on an offer topic. -/
def isOfferEvent : JoinerEvent → Bool
  | .connect => false
  | .recv t _ => strEndsWith t "/offer"

/-- The two signaling states the host's answer handler distinguishes. -/
inductive SignalingState
  | stable
  | haveLocalOffer
  deriving DecidableEq, Repr

/-- Observable state of the cloud host (App.tsx `connectCloudHost`). -/
structure HostState where
  published : List PubRec
  signaling : SignalingState
  remoteDescSet : Bool
  deriving DecidableEq, Repr

/-- Topics the host subscribes to in its 'connect' callback. -/
def hostSubscriptions (code : String) : List String :=
  [joinTopic code, answerTopic code]

/-- The host's 'connect' callback (App.tsx lines 309-322): creates and sets
the local offer, and when reconnecting publishes to the restart topic. -/
def hostOnConnect (code : String) (isReconnecting : Bool) (s : HostState) : HostState :=
  { s with signaling := .haveLocalOffer,
           published := s.published ++
             (if isReconnecting then [⟨restartTopic code, "host_back"⟩] else []) }

/-- First statement of the host's relay message handler (App.tsx lines
327-337): a message on a join or restart topic makes it publish the local
offer. -/
def hostJoinBranch (code : String) (localDesc : Desc) (s : HostState) (t : String) : HostState :=
  if strEndsWith t "/join" || strEndsWith t "/restart" then
    { s with published := s.published ++ [⟨offerTopic code, localDesc.sdp⟩] }
  else s

/-- Second statement of the host's relay message handler (App.tsx lines
339-349): a message on an answer topic is parsed inside try/catch (so
failures are swallowed) and, when the signaling state is have-local-offer,
set as the remote description. -/
def hostAnswerBranch (s : HostState) (t : String) (m : RawMsg) : HostState :=
  if strEndsWith t "/answer" then
    match m with
    | .descMsg _ =>
      if s.signaling = .haveLocalOffer then
        { s with remoteDescSet := true, signaling := .stable }
      else s
    | _ => s
  else s

/-- The host's relay message handler (App.tsx lines 324-350): the two
topic checks run in sequence on every delivered message. -/
def hostOnMessage (code : String) (localDesc : Desc) (s : HostState)
    (t : String) (m : RawMsg) : HostState :=
  hostAnswerBranch (hostJoinBranch code localDesc s t) t m

/-- Run of the host's message handler over a sequence of (topic, message)
deliveries. -/
def hostRun (code : String) (localDesc : Desc) (s0 : HostState)
    (events : List (String × RawMsg)) : HostState :=
  events.foldl (fun s e => hostOnMessage code localDesc s e.1 e.2) s0

/-- App.tsx `startCloudHost` code generation:
Math.floor(1000 + Math.random() * 9000), with r the value returned by
Math.random(). -/
def genCode (r : ℚ) : ℤ := ⌊(1000 : ℚ) + r * 9000⌋

/-- Length of the decimal representation of a natural number, the model of
JavaScript's n.toString().length. -/
def decimalDigitCount (n : ℕ) : ℕ := (Nat.digits 10 n).length

/-- What `joinCloudGame` does: the session it saves and the code it hands
to connectCloudJoiner, if any. -/
structure JoinAttempt where
  sessionSaved : Option SessionData
  connectCode : Option String
  deriving DecidableEq, Repr

/-- App.tsx `joinCloudGame` (lines 353-357): a no-op unless the entered
code has length exactly 4; otherwise saves a CLOUD/JOINER session and
starts connecting with that code. -/
def joinCloudGame (inputCode : String) (now : Int) : JoinAttempt :=
  if inputCode.length ≠ 4 then ⟨none, none⟩
  else ⟨some ⟨.CLOUD, .JOINER, inputCode, now⟩, some inputCode⟩

/-- A topic is of the documented room-topic form for a code. -/
def roomTopicForm (code t : String) : Prop :=
  t = joinTopic code ∨ t = offerTopic code ∨ t = answerTopic code ∨ t = restartTopic code

/-- A canvas bounding rectangle, as returned by getBoundingClientRect. -/
structure Rect where
  left : ℚ
  top : ℚ
  width : ℚ
  height : ℚ
  deriving DecidableEq, Repr

/-- DrawingBoard.tsx `getCoords`: offsets of the event position inside the
canvas rectangle, divided by its width and height. -/
def getCoords (rect : Rect) (clientX clientY : ℚ) : Point :=
  ⟨(clientX - rect.left) / rect.width, (clientY - rect.top) / rect.height⟩

/-- One push of getCoords's result onto the current path (startDrawing and
moveDrawing both do `if (pt) currentPath.current.push(pt)`). -/
def pushPoint (path : List Point) (pt : Option Point) : List Point :=
  match pt with
  | some p => path ++ [p]
  | none => path

/-- The path accumulated over a gesture, from the sequence of getCoords
results (some point, or none when the canvas ref was missing). -/
def capturePath (pts : List (Option Point)) : List Point :=
  pts.foldl pushPoint []

/-- DrawingBoard.tsx `endDrawing` composed with App.tsx's
`handleStrokeComplete` callback: nothing happens unless a drawing was in
progress and at least one point was captured; otherwise a copy of the
captured path becomes a new stroke, appended and sent. -/
def endDrawing (isDrawing : Bool) (currentPath : List Point) (channelOpen : Bool)
    (id : String) (strokes : List Stroke) : List Stroke × List PeerMsg :=
  if isDrawing = false then (strokes, [])
  else if currentPath.isEmpty then (strokes, [])
  else handleStrokeComplete channelOpen id currentPath strokes

/-- The slice of an RTCPeerConnection the manual-mode handlers touch. -/
structure PeerConn where
  remoteDesc : Option Desc
  deriving DecidableEq, Repr

/-- A freshly created peer connection (App.tsx `initPC`): no remote
description set. -/
def freshPeerConn : PeerConn := ⟨none⟩

/-- State touched by the manual host's connect handler. -/
structure ManualHostState where
  pc : Option PeerConn
  remoteAnswer : String
  errorMsg : String
  connStatus : String
  deriving DecidableEq, Repr

/-- App.tsx `handleManualHostConnect` (lines 434-443), with `decode`
standing for LZString.decompressFromBase64 composed with JSON.parse and
descriptor validation (`none` models any failure in that pipeline): the
guard returns early when there is no peer connection or no pasted text;
any decode failure is caught and surfaces as 'Invalid Answer Code'. -/
def handleManualHostConnect (decode : String → Option Desc) (s : ManualHostState) :
    ManualHostState :=
  match s.pc with
  | none => s
  | some pc =>
    if s.remoteAnswer = "" then s
    else
      match decode s.remoteAnswer with
      | none => { s with errorMsg := "Invalid Answer Code" }
      | some d =>
        { s with pc := some { pc with remoteDesc := some d }, connStatus := "Connecting..." }

/-- State touched by the manual joiner's generate handler. -/
structure ManualJoinState where
  pc : Option PeerConn
  remoteAnswer : String
  errorMsg : String
  deriving DecidableEq, Repr

/-- App.tsx `handleManualJoinGenerate` (lines 451-471): re-initializes the
peer connection, then decodes the pasted offer; a decode failure is caught
and surfaces as 'Invalid Host Code', leaving the fresh connection with no
remote description. -/
def handleManualJoinGenerate (decode : String → Option Desc) (s : ManualJoinState) :
    ManualJoinState :=
  let s1 := { s with pc := some freshPeerConn }
  match decode s.remoteAnswer with
  | none => { s1 with errorMsg := "Invalid Host Code" }
  | some d => { s1 with pc := some { freshPeerConn with remoteDesc := some d } }

/-- A sample stroke used by concrete counterexamples. -/
def demoStroke : Stroke := ⟨"1", [⟨1/2, 1/2⟩], localStrokeColor, false⟩

lemma clearSession_sessionKey (st : Store) : clearSession st "chkobba_session" = none := by
  simp [clearSession, removeItem]

lemma clearSession_manualKey (st : Store) : clearSession st "chkobba_manual_state" = none := by
  simp [clearSession, removeItem]

lemma clearSession_other (st : Store) (k : String) (h1 : k ≠ "chkobba_session")
    (h2 : k ≠ "chkobba_manual_state") : clearSession st k = st k := by
  simp [clearSession, removeItem, h1, h2]

/-- Claim C3: the persisted session record is exactly {mode, role, code,
timestamp} stored under 'chkobba_session' with the save-time timestamp, the
manual-mode text backup is stored under 'chkobba_manual_state', and
clearing the session removes both of these keys and no others. -/
theorem session_storage_contract (st : Store) (mode : Mode) (role : Role)
    (code : String) (now : Int) (v : ViewState) (lo ra : String) :
    saveSession st mode role code now "chkobba_session"
      = some (StoredValue.sess ⟨mode, role, code, now⟩)
  ∧ (∀ k, k ≠ "chkobba_session" → saveSession st mode role code now k = st k)
  ∧ ((v = ViewState.MANUAL_HOST ∨ v = ViewState.MANUAL_JOIN) →
      saveManualBackup st v lo ra "chkobba_manual_state"
        = some (StoredValue.manual ⟨lo, ra⟩))
  ∧ clearSession st "chkobba_session" = none
  ∧ clearSession st "chkobba_manual_state" = none
  ∧ (∀ k, k ≠ "chkobba_session" → k ≠ "chkobba_manual_state" → clearSession st k = st k) := by
  refine ⟨?_, ?_, ?_, clearSession_sessionKey st, clearSession_manualKey st,
    clearSession_other st⟩
  · simp [saveSession, setItem]
  · intro k hk
    simp [saveSession, setItem, hk]
  · intro hv
    rcases hv with hv | hv <;> simp [saveManualBackup, hv, setItem]

/-- Witness for the session storage contract at concrete keys and values. -/
theorem session_storage_contract_witness :
    saveSession emptyStore Mode.CLOUD Role.HOST "1234" 5 "chkobba_session"
      = some (StoredValue.sess ⟨Mode.CLOUD, Role.HOST, "1234", 5⟩)
  ∧ saveSession emptyStore Mode.CLOUD Role.HOST "1234" 5 "other" = emptyStore "other"
  ∧ saveManualBackup emptyStore ViewState.MANUAL_HOST "a" "b" "chkobba_manual_state"
      = some (StoredValue.manual ⟨"a", "b"⟩)
  ∧ clearSession emptyStore "other" = emptyStore "other" := by
  obtain ⟨h1, h2, h3, -, -, h6⟩ :=
    session_storage_contract emptyStore Mode.CLOUD Role.HOST "1234" 5
      ViewState.MANUAL_HOST "a" "b"
  exact ⟨h1, h2 "other" (by decide), h3 (Or.inl rfl), h6 "other" (by decide) (by decide)⟩

/-- Claim C4: a stored session is acted upon only when it parses and its
timestamp is strictly less than 2 hours (7,200,000 ms) old; a stored record
that is at least that old, or that fails to parse, leads to both storage
keys being removed and no action taken. -/
theorem stale_or_corrupt_session_cleanup (st : Store) (now : Int) :
    ((restoreSession st now).1 ≠ RestoreAction.noAction →
      ∃ v session, st "chkobba_session" = some v ∧ parseSessionValue v = some session ∧
        now - session.timestamp < sessionMaxAgeMs)
  ∧ (∀ v session, st "chkobba_session" = some v → parseSessionValue v = some session →
      sessionMaxAgeMs ≤ now - session.timestamp →
      (restoreSession st now).1 = RestoreAction.noAction
      ∧ (restoreSession st now).2 "chkobba_session" = none
      ∧ (restoreSession st now).2 "chkobba_manual_state" = none)
  ∧ (∀ v, st "chkobba_session" = some v → parseSessionValue v = none →
      (restoreSession st now).1 = RestoreAction.noAction
      ∧ (restoreSession st now).2 "chkobba_session" = none
      ∧ (restoreSession st now).2 "chkobba_manual_state" = none) := by
  refine ⟨?_, ?_, ?_⟩
  · intro hne
    cases hsv : st "chkobba_session" with
    | none => simp [restoreSession, hsv] at hne
    | some v =>
      cases hp : parseSessionValue v with
      | none => simp [restoreSession, hsv, hp] at hne
      | some session =>
        by_cases hf : now - session.timestamp < sessionMaxAgeMs
        · exact ⟨v, session, rfl, hp, hf⟩
        · simp [restoreSession, hsv, hp, hf] at hne
  · intro v session hsv hp hage
    have hlt : ¬ (now - session.timestamp < sessionMaxAgeMs) := by omega
    simp [restoreSession, hsv, hp, hlt, clearSession_sessionKey, clearSession_manualKey]
  · intro v hsv hp
    simp [restoreSession, hsv, hp, clearSession_sessionKey, clearSession_manualKey]

/-- Witness for the stale-session cleanup at a concrete store holding a
record exactly 7,200,000 ms old. -/
theorem stale_or_corrupt_session_cleanup_witness :
    (restoreSession (setItem emptyStore "chkobba_session"
        (StoredValue.sess ⟨Mode.CLOUD, Role.HOST, "1", 0⟩)) 7200000).1
      = RestoreAction.noAction
  ∧ (restoreSession (setItem emptyStore "chkobba_session"
        (StoredValue.sess ⟨Mode.CLOUD, Role.HOST, "1", 0⟩)) 7200000).2
      "chkobba_session" = none := by
  obtain ⟨-, h2, -⟩ := stale_or_corrupt_session_cleanup (setItem emptyStore "chkobba_session"
    (StoredValue.sess ⟨Mode.CLOUD, Role.HOST, "1", 0⟩)) 7200000
  obtain ⟨ha, hb, -⟩ := h2 (StoredValue.sess ⟨Mode.CLOUD, Role.HOST, "1", 0⟩)
    ⟨Mode.CLOUD, Role.HOST, "1", 0⟩ (by simp [setItem]) rfl
    (by norm_num [sessionMaxAgeMs])
  exact ⟨ha, hb⟩

lemma foldl_pushPoint (pts : List (Option Point)) (acc : List Point) :
    pts.foldl pushPoint acc = acc ++ pts.reduceOption := by
  induction pts generalizing acc with
  | nil => simp
  | cons p ps ih =>
    cases p with
    | none => simp [pushPoint, ih]
    | some q => simp [pushPoint, ih]

/-- Claim C2 fails as stated: with a stroke already held, the
connection-established handlers transmit nothing to the peer. -/
theorem connect_handlers_transmit_nothing :
    (dcOnOpen ⟨"", ViewState.HOST_LOBBY, false, false, [demoStroke]⟩).2 = []
  ∧ (pcOnConnected ⟨"", ViewState.HOST_LOBBY, false, false, [demoStroke]⟩).2 = []
  ∧ ([demoStroke] : List Stroke) ≠ [] := by
  exact ⟨rfl, rfl, by simp⟩

/-- Claim C2 (amended): once the peer connection is established, the open
and connected handlers only mark the app connected and enter the game view
(the connected handler additionally stops reconnecting and ends the relay
client); no stored strokes are transmitted on connection, and drawing state
is instead shared incrementally: each completed stroke is sent over the
channel at completion time. -/
theorem connection_established_behavior (s : ConnState) (id : String)
    (pts : List Point) (strokes : List Stroke) :
    dcOnOpen s = ({ s with connStatus := "Connected", appView := ViewState.GAME }, [])
  ∧ pcOnConnected s = ({ s with
      connStatus := "Connected", appView := ViewState.GAME,
      isReconnecting := false, mqttEnded := true }, [])
  ∧ (dcOnOpen s).1.strokes = s.strokes
  ∧ (pcOnConnected s).1.strokes = s.strokes
  ∧ (handleStrokeComplete true id pts strokes).2
      = [PeerMsg.syncStroke ⟨id, pts, localStrokeColor, false⟩] := by
  exact ⟨rfl, rfl, rfl, rfl, rfl⟩

/-- Claim C7: manual-mode handlers surface 'Invalid Answer Code' (host) and
'Invalid Host Code' (joiner) on codes that fail to decode, set no remote
description in that case, and the host-side connect handler does nothing
when there is no pasted text or no peer connection. -/
theorem manual_code_error_handling (decode : String → Option Desc)
    (hs : ManualHostState) (js : ManualJoinState) :
    (hs.pc = none → handleManualHostConnect decode hs = hs)
  ∧ (hs.remoteAnswer = "" → handleManualHostConnect decode hs = hs)
  ∧ (∀ pc0, hs.pc = some pc0 → hs.remoteAnswer ≠ "" → decode hs.remoteAnswer = none →
      (handleManualHostConnect decode hs).errorMsg = "Invalid Answer Code"
      ∧ (handleManualHostConnect decode hs).pc = hs.pc)
  ∧ (decode js.remoteAnswer = none →
      (handleManualJoinGenerate decode js).errorMsg = "Invalid Host Code"
      ∧ (handleManualJoinGenerate decode js).pc = some freshPeerConn)
  ∧ freshPeerConn.remoteDesc = none := by
  refine ⟨?_, ?_, ?_, ?_, rfl⟩
  · intro h
    simp [handleManualHostConnect, h]
  · intro h
    cases hpc : hs.pc with
    | none => simp [handleManualHostConnect, hpc]
    | some pc0 => simp [handleManualHostConnect, hpc, h]
  · intro pc0 hpc hra hdec
    simp [handleManualHostConnect, hpc, hra, hdec]
  · intro hdec
    simp [handleManualJoinGenerate, hdec]

/-- Witness for the manual-mode error handling at a decoder that rejects
everything and concrete states. -/
theorem manual_code_error_handling_witness :
    (handleManualHostConnect (fun _ => none) ⟨some freshPeerConn, "xyz", "", ""⟩).errorMsg
      = "Invalid Answer Code"
  ∧ (handleManualJoinGenerate (fun _ => none) ⟨none, "abc", ""⟩).errorMsg
      = "Invalid Host Code" := by
  obtain ⟨-, -, h3, h4, -⟩ := manual_code_error_handling (fun _ => none)
    ⟨some freshPeerConn, "xyz", "", ""⟩ ⟨none, "abc", ""⟩
  exact ⟨(h3 freshPeerConn rfl (by decide) rfl).1, (h4 rfl).1⟩

/-- Claim C8 fails as stated: the heartbeat interval sends a fourth message
shape, HEARTBEAT, over the peer data channel. -/
theorem heartbeat_is_fourth_message_type :
    heartbeatTick true = [PeerMsg.heartbeat]
  ∧ PeerMsg.typeName PeerMsg.heartbeat = "HEARTBEAT"
  ∧ PeerMsg.typeName PeerMsg.heartbeat
      ∉ (["SYNC_STROKE", "CLEAR_BOARD", "PING"] : List String) := by
  refine ⟨rfl, rfl, by decide⟩

/-- Claim C8 (amended): every message sent over the peer data channel by
any of the four send sites is a JSON object whose type is one of exactly
four shapes: SYNC_STROKE, CLEAR_BOARD, PING, or HEARTBEAT. -/
theorem peer_message_types (channelOpen : Bool) (id : String) (pts : List Point)
    (strokes : List Stroke) (m : PeerMsg)
    (hm : m ∈ heartbeatTick channelOpen
        ∨ m ∈ (clearBoardAction channelOpen).2
        ∨ m ∈ triggerPing channelOpen
        ∨ m ∈ (handleStrokeComplete channelOpen id pts strokes).2) :
    m.typeName ∈ (["SYNC_STROKE", "CLEAR_BOARD", "PING", "HEARTBEAT"] : List String) := by
  cases m <;> simp [PeerMsg.typeName]

/-- Witness for the peer message type bound at the heartbeat send site. -/
theorem peer_message_types_witness :
    PeerMsg.typeName PeerMsg.heartbeat
      ∈ (["SYNC_STROKE", "CLEAR_BOARD", "PING", "HEARTBEAT"] : List String) :=
  peer_message_types true "1" [] [] PeerMsg.heartbeat (Or.inl (by decide))

/-- Claim C9: a completed gesture adds a stroke exactly when at least one
point was captured; the stroke's points are the captured points in capture
order, hence non-empty; a gesture that captured nothing adds no stroke and
sends nothing, and nothing happens when no drawing was in progress. -/
theorem completed_gesture_strokes (moves : List (Option Point)) (channelOpen : Bool)
    (id : String) (strokes : List Stroke) :
    capturePath moves = moves.reduceOption
  ∧ (capturePath moves = [] →
      endDrawing true (capturePath moves) channelOpen id strokes = (strokes, []))
  ∧ (capturePath moves ≠ [] →
      (endDrawing true (capturePath moves) channelOpen id strokes).1
        = strokes ++ [⟨id, capturePath moves, localStrokeColor, false⟩])
  ∧ (∀ s ∈ (endDrawing true (capturePath moves) channelOpen id strokes).1,
      s ∈ strokes ∨ (s.points = capturePath moves ∧ s.points ≠ []))
  ∧ endDrawing false (capturePath moves) channelOpen id strokes = (strokes, []) := by
  refine ⟨by simpa using foldl_pushPoint moves [], ?_, ?_, ?_, by simp [endDrawing]⟩
  · intro h
    simp [endDrawing, h]
  · intro h
    obtain ⟨p, ps, hps⟩ := List.exists_cons_of_ne_nil h
    simp [endDrawing, hps, handleStrokeComplete]
  · intro s hs
    by_cases h : capturePath moves = []
    · left
      simpa [endDrawing, h] using hs
    · obtain ⟨p, ps, hps⟩ := List.exists_cons_of_ne_nil h
      have he : (endDrawing true (p :: ps) channelOpen id strokes).1
          = strokes ++ [⟨id, p :: ps, localStrokeColor, false⟩] := by
        simp [endDrawing, handleStrokeComplete]
      rw [hps, he] at hs
      rcases List.mem_append.mp hs with hs | hs
      · exact Or.inl hs
      · right
        rw [List.mem_singleton.mp hs]
        simp [hps]

/-- Witness for the gesture-to-stroke behavior at a one-point gesture and
at an empty gesture. -/
theorem completed_gesture_strokes_witness :
    (endDrawing true (capturePath [some ⟨0, 0⟩]) true "7" []).1
      = [] ++ [⟨"7", capturePath [some ⟨0, 0⟩], localStrokeColor, false⟩]
  ∧ endDrawing true (capturePath ([] : List (Option Point))) true "7" [] = ([], []) := by
  refine ⟨(completed_gesture_strokes [some ⟨0, 0⟩] true "7" []).2.2.1 ?_,
          (completed_gesture_strokes [] true "7" []).2.1 rfl⟩
  simp [capturePath, pushPoint]

/-- Claim C10 fails as stated: a point captured while the pointer is
outside the canvas rectangle (possible for touch moves, which keep firing
on the original target) gets a coordinate below 0. -/
theorem captured_point_outside_unit_interval :
    (getCoords ⟨10, 0, 10, 10⟩ 0 0).x < 0 := by
  norm_num [getCoords]

/-- Claim C10 (amended): every captured point's coordinates are the event
offsets divided by the canvas width and height, and they lie in [0, 1]
exactly when the event position lies inside the canvas bounding rectangle
(for positive canvas dimensions). -/
theorem captured_point_normalization (rect : Rect) (clientX clientY : ℚ)
    (hw : 0 < rect.width) (hh : 0 < rect.height) :
    (getCoords rect clientX clientY).x = (clientX - rect.left) / rect.width
  ∧ (getCoords rect clientX clientY).y = (clientY - rect.top) / rect.height
  ∧ ((0 ≤ (getCoords rect clientX clientY).x ∧ (getCoords rect clientX clientY).x ≤ 1
    ∧ 0 ≤ (getCoords rect clientX clientY).y ∧ (getCoords rect clientX clientY).y ≤ 1)
    ↔ (rect.left ≤ clientX ∧ clientX ≤ rect.left + rect.width
    ∧ rect.top ≤ clientY ∧ clientY ≤ rect.top + rect.height)) := by
  refine ⟨rfl, rfl, ?_⟩
  simp only [getCoords]
  constructor
  · rintro ⟨h1, h2, h3, h4⟩
    rw [le_div_iff₀ hw] at h1
    rw [div_le_one hw] at h2
    rw [le_div_iff₀ hh] at h3
    rw [div_le_one hh] at h4
    refine ⟨by linarith, by linarith, by linarith, by linarith⟩
  · rintro ⟨h1, h2, h3, h4⟩
    refine ⟨div_nonneg (by linarith) hw.le, (div_le_one hw).mpr (by linarith),
            div_nonneg (by linarith) hh.le, (div_le_one hh).mpr (by linarith)⟩

/-- Witness for the normalization characterization at a point inside a
concrete canvas rectangle. -/
theorem captured_point_normalization_witness :
    0 ≤ (getCoords ⟨0, 0, 10, 10⟩ 5 5).x ∧ (getCoords ⟨0, 0, 10, 10⟩ 5 5).x ≤ 1
  ∧ 0 ≤ (getCoords ⟨0, 0, 10, 10⟩ 5 5).y ∧ (getCoords ⟨0, 0, 10, 10⟩ 5 5).y ≤ 1 := by
  have h := captured_point_normalization ⟨0, 0, 10, 10⟩ 5 5 (by norm_num) (by norm_num)
  exact h.2.2.mpr (by norm_num)

lemma joinTopic_ne_answerTopic (code : String) : joinTopic code ≠ answerTopic code := by
  intro h
  have h2 := congrArg String.length h
  simp only [joinTopic, answerTopic, roomTopic, String.length_append] at h2
  have e1 : ("join" : String).length = 4 := rfl
  have e2 : ("answer" : String).length = 6 := rfl
  omega

lemma joinerStep_ok {code : String} {answer : Desc} {s : JoinerState} {e : JoinerEvent}
    {s2 : JoinerState} (h : joinerHandle code answer s e = .ok s2) :
    joinerStep code answer s e = s2 := by
  simp [joinerStep, h]

lemma joinerStep_error {code : String} {answer : Desc} {s : JoinerState} {e : JoinerEvent}
    (h : joinerHandle code answer s e = .error ()) :
    joinerStep code answer s e = s := by
  simp [joinerStep, h]

lemma joinerHandle_connect (code : String) (answer : Desc) (s : JoinerState) :
    joinerHandle code answer s .connect
      = .ok { s with published := s.published ++ [⟨joinTopic code, "hello"⟩] } := rfl

lemma joinerHandle_restart (code : String) (answer : Desc) (s : JoinerState)
    (t : String) (m : RawMsg) (hr : strEndsWith t "/restart" = true) :
    joinerHandle code answer s (.recv t m)
      = .ok { s with published := s.published ++ [⟨joinTopic code, "hello_again"⟩] } := by
  simp [joinerHandle, hr]

lemma joinerHandle_offer_desc (code : String) (answer : Desc) (s : JoinerState)
    (t : String) (d : Desc) (hr : strEndsWith t "/restart" = false)
    (ho : strEndsWith t "/offer" = true) :
    joinerHandle code answer s (.recv t (.descMsg d))
      = .ok { s with remoteDescSet := true, localAnswerSet := true,
                     published := s.published ++ [⟨answerTopic code, answer.sdp⟩] } := by
  simp [joinerHandle, hr, ho]

lemma joinerHandle_offer_notJson (code : String) (answer : Desc) (s : JoinerState)
    (t : String) (raw : String) (hr : strEndsWith t "/restart" = false)
    (ho : strEndsWith t "/offer" = true) :
    joinerHandle code answer s (.recv t (.notJson raw)) = .error () := by
  simp [joinerHandle, hr, ho]

lemma joinerHandle_offer_otherJson (code : String) (answer : Desc) (s : JoinerState)
    (t : String) (raw : String) (hr : strEndsWith t "/restart" = false)
    (ho : strEndsWith t "/offer" = true) :
    joinerHandle code answer s (.recv t (.otherJson raw)) = .error () := by
  simp [joinerHandle, hr, ho]

lemma joinerHandle_other (code : String) (answer : Desc) (s : JoinerState)
    (t : String) (m : RawMsg) (hr : strEndsWith t "/restart" = false)
    (ho : strEndsWith t "/offer" = false) :
    joinerHandle code answer s (.recv t m) = .ok s := by
  simp [joinerHandle, hr, ho]

lemma joinerStep_published (code : String) (answer : Desc) (s : JoinerState)
    (e : JoinerEvent) (p : PubRec) (hp : p ∈ (joinerStep code answer s e).published) :
    p ∈ s.published ∨ p.topic = joinTopic code ∨ p.topic = answerTopic code := by
  cases e with
  | connect =>
    rw [joinerStep_ok (joinerHandle_connect code answer s)] at hp
    rcases List.mem_append.mp hp with h | h
    · exact Or.inl h
    · rw [List.mem_singleton.mp h]
      exact Or.inr (Or.inl rfl)
  | recv t m =>
    by_cases hr : strEndsWith t "/restart" = true
    · rw [joinerStep_ok (joinerHandle_restart code answer s t m hr)] at hp
      rcases List.mem_append.mp hp with h | h
      · exact Or.inl h
      · rw [List.mem_singleton.mp h]
        exact Or.inr (Or.inl rfl)
    · rw [Bool.not_eq_true] at hr
      by_cases ho : strEndsWith t "/offer" = true
      · cases m with
        | descMsg d =>
          rw [joinerStep_ok (joinerHandle_offer_desc code answer s t d hr ho)] at hp
          rcases List.mem_append.mp hp with h | h
          · exact Or.inl h
          · rw [List.mem_singleton.mp h]
            exact Or.inr (Or.inr rfl)
        | notJson raw =>
          rw [joinerStep_error (joinerHandle_offer_notJson code answer s t raw hr ho)] at hp
          exact Or.inl hp
        | otherJson raw =>
          rw [joinerStep_error (joinerHandle_offer_otherJson code answer s t raw hr ho)] at hp
          exact Or.inl hp
      · rw [Bool.not_eq_true] at ho
        rw [joinerStep_ok (joinerHandle_other code answer s t m hr ho)] at hp
        exact Or.inl hp

lemma joinerStep_no_offer (code : String) (answer : Desc) (s : JoinerState)
    (e : JoinerEvent) (he : isOfferEvent e = false) (p : PubRec)
    (hp : p ∈ (joinerStep code answer s e).published) :
    p ∈ s.published ∨ p.topic = joinTopic code := by
  cases e with
  | connect =>
    rw [joinerStep_ok (joinerHandle_connect code answer s)] at hp
    rcases List.mem_append.mp hp with h | h
    · exact Or.inl h
    · rw [List.mem_singleton.mp h]
      exact Or.inr rfl
  | recv t m =>
    have ho : strEndsWith t "/offer" = false := by simpa [isOfferEvent] using he
    by_cases hr : strEndsWith t "/restart" = true
    · rw [joinerStep_ok (joinerHandle_restart code answer s t m hr)] at hp
      rcases List.mem_append.mp hp with h | h
      · exact Or.inl h
      · rw [List.mem_singleton.mp h]
        exact Or.inr rfl
    · rw [Bool.not_eq_true] at hr
      rw [joinerStep_ok (joinerHandle_other code answer s t m hr ho)] at hp
      exact Or.inl hp

lemma joinerFold_no_offer (code : String) (answer : Desc) (events : List JoinerEvent)
    (he : ∀ e ∈ events, isOfferEvent e = false) :
    ∀ s p, p ∈ (events.foldl (joinerStep code answer) s).published →
      p ∈ s.published ∨ p.topic = joinTopic code := by
  induction events with
  | nil => intro s p hp; exact Or.inl hp
  | cons e es ih =>
    intro s p hp
    have hp2 : p ∈ (es.foldl (joinerStep code answer) (joinerStep code answer s e)).published := by
      simpa [List.foldl_cons] using hp
    rcases ih (fun x hx => he x (List.mem_cons_of_mem e hx)) (joinerStep code answer s e) p hp2
        with h | h
    · exact joinerStep_no_offer code answer s e (he e (List.mem_cons_self e es)) p h
    · exact Or.inr h

lemma joinerStep_answer_flags (code : String) (answer : Desc) (s : JoinerState)
    (e : JoinerEvent)
    (h : (∃ p ∈ s.published, p.topic = answerTopic code) →
      s.remoteDescSet = true ∧ s.localAnswerSet = true) :
    (∃ p ∈ (joinerStep code answer s e).published, p.topic = answerTopic code) →
      (joinerStep code answer s e).remoteDescSet = true
      ∧ (joinerStep code answer s e).localAnswerSet = true := by
  cases e with
  | connect =>
    rw [joinerStep_ok (joinerHandle_connect code answer s)]
    rintro ⟨p, hp, ht⟩
    rcases List.mem_append.mp hp with h1 | h1
    · exact h ⟨p, h1, ht⟩
    · rw [List.mem_singleton.mp h1] at ht
      exact absurd ht (joinTopic_ne_answerTopic code)
  | recv t m =>
    by_cases hr : strEndsWith t "/restart" = true
    · rw [joinerStep_ok (joinerHandle_restart code answer s t m hr)]
      rintro ⟨p, hp, ht⟩
      rcases List.mem_append.mp hp with h1 | h1
      · exact h ⟨p, h1, ht⟩
      · rw [List.mem_singleton.mp h1] at ht
        exact absurd ht (joinTopic_ne_answerTopic code)
    · rw [Bool.not_eq_true] at hr
      by_cases ho : strEndsWith t "/offer" = true
      · cases m with
        | descMsg d =>
          rw [joinerStep_ok (joinerHandle_offer_desc code answer s t d hr ho)]
          exact fun _ => ⟨rfl, rfl⟩
        | notJson raw =>
          rw [joinerStep_error (joinerHandle_offer_notJson code answer s t raw hr ho)]
          exact h
        | otherJson raw =>
          rw [joinerStep_error (joinerHandle_offer_otherJson code answer s t raw hr ho)]
          exact h
      · rw [Bool.not_eq_true] at ho
        rw [joinerStep_ok (joinerHandle_other code answer s t m hr ho)]
        exact h

lemma joinerFold_answer_flags (code : String) (answer : Desc) (events : List JoinerEvent) :
    ∀ s, ((∃ p ∈ s.published, p.topic = answerTopic code) →
      s.remoteDescSet = true ∧ s.localAnswerSet = true) →
    (∃ p ∈ (events.foldl (joinerStep code answer) s).published,
        p.topic = answerTopic code) →
      (events.foldl (joinerStep code answer) s).remoteDescSet = true
      ∧ (events.foldl (joinerStep code answer) s).localAnswerSet = true := by
  induction events with
  | nil => intro s h; exact h
  | cons e es ih =>
    intro s h
    simp only [List.foldl_cons]
    exact ih (joinerStep code answer s e) (joinerStep_answer_flags code answer s e h)

lemma joinerFold_published (code : String) (answer : Desc) (events : List JoinerEvent) :
    ∀ s p, p ∈ (events.foldl (joinerStep code answer) s).published →
      p ∈ s.published ∨ p.topic = joinTopic code ∨ p.topic = answerTopic code := by
  induction events with
  | nil => intro s p hp; exact Or.inl hp
  | cons e es ih =>
    intro s p hp
    have hp2 : p ∈ (es.foldl (joinerStep code answer) (joinerStep code answer s e)).published := by
      simpa [List.foldl_cons] using hp
    rcases ih (joinerStep code answer s e) p hp2 with h | h
    · exact joinerStep_published code answer s e p h
    · exact Or.inr h

lemma hostAnswerBranch_published (s : HostState) (t : String) (m : RawMsg) :
    (hostAnswerBranch s t m).published = s.published := by
  unfold hostAnswerBranch
  split
  · split
    · split
      · rfl
      · rfl
    · rfl
  · rfl

lemma hostJoinBranch_published (code : String) (localDesc : Desc) (s : HostState)
    (t : String) :
    (hostJoinBranch code localDesc s t).published = s.published
  ∨ (hostJoinBranch code localDesc s t).published
      = s.published ++ [⟨offerTopic code, localDesc.sdp⟩] := by
  unfold hostJoinBranch
  split
  · exact Or.inr rfl
  · exact Or.inl rfl

lemma hostOnMessage_published (code : String) (localDesc : Desc) (s : HostState)
    (t : String) (m : RawMsg) (p : PubRec)
    (hp : p ∈ (hostOnMessage code localDesc s t m).published) :
    p ∈ s.published ∨ p.topic = offerTopic code := by
  unfold hostOnMessage at hp
  rw [hostAnswerBranch_published] at hp
  rcases hostJoinBranch_published code localDesc s t with h | h
  · rw [h] at hp
    exact Or.inl hp
  · rw [h] at hp
    rcases List.mem_append.mp hp with h1 | h1
    · exact Or.inl h1
    · rw [List.mem_singleton.mp h1]
      exact Or.inr rfl

lemma hostRun_published (code : String) (localDesc : Desc) (events : List (String × RawMsg)) :
    ∀ s p, p ∈ (hostRun code localDesc s events).published →
      p ∈ s.published ∨ p.topic = offerTopic code := by
  induction events with
  | nil => intro s p hp; exact Or.inl hp
  | cons e es ih =>
    intro s p hp
    have hp2 : p ∈ (hostRun code localDesc (hostOnMessage code localDesc s e.1 e.2) es).published := by
      simpa [hostRun, List.foldl_cons] using hp
    rcases ih (hostOnMessage code localDesc s e.1 e.2) p hp2 with h | h
    · exact hostOnMessage_published code localDesc s e.1 e.2 p h
    · exact Or.inr h

/-- Claim C1: in cloud mode the joiner publishes a join request upon
connecting to the relay; it publishes an answer only having received an
offer, set it as remote description and created a local answer: in any run
whose events contain no offer reception, no answer is ever published, and
whenever an answer has been published the remote description and local
answer are in place and an offer reception occurred. -/
theorem joiner_two_phase_exchange (code : String) (answer : Desc)
    (events : List JoinerEvent) :
    (joinerRun code answer [JoinerEvent.connect]).published
      = [⟨joinTopic code, "hello"⟩]
  ∧ ((∀ e ∈ events, isOfferEvent e = false) →
      ∀ p ∈ (joinerRun code answer events).published, p.topic ≠ answerTopic code)
  ∧ ((∃ p ∈ (joinerRun code answer events).published, p.topic = answerTopic code) →
      (joinerRun code answer events).remoteDescSet = true
      ∧ (joinerRun code answer events).localAnswerSet = true
      ∧ ∃ e ∈ events, isOfferEvent e = true) := by
  refine ⟨?_, ?_, ?_⟩
  · simp [joinerRun, joinerStep, joinerHandle, initJoiner]
  · intro he p hp
    rcases joinerFold_no_offer code answer events he initJoiner p hp with h | h
    · simp [initJoiner] at h
    · rw [h]
      exact joinTopic_ne_answerTopic code
  · intro hex
    have hbase : (∃ p ∈ initJoiner.published, p.topic = answerTopic code) →
        initJoiner.remoteDescSet = true ∧ initJoiner.localAnswerSet = true := by
      rintro ⟨p, hp, -⟩
      simp [initJoiner] at hp
    have hflags := joinerFold_answer_flags code answer events initJoiner hbase hex
    refine ⟨hflags.1, hflags.2, ?_⟩
    by_contra hno
    push_neg at hno
    have he : ∀ e ∈ events, isOfferEvent e = false := by
      intro e hee
      simpa using hno e hee
    obtain ⟨p, hp, ht⟩ := hex
    rcases joinerFold_no_offer code answer events he initJoiner p hp with h | h
    · simp [initJoiner] at h
    · rw [h] at ht
      exact joinTopic_ne_answerTopic code ht

/-- Witness for the joiner's two-phase exchange at a concrete room code
and event traces with and without an offer. -/
theorem joiner_two_phase_exchange_witness :
    (⟨joinTopic "1234", "hello"⟩ : PubRec).topic ≠ answerTopic "1234"
  ∧ (joinerRun "1234" ⟨"sdp"⟩
      [JoinerEvent.connect,
       JoinerEvent.recv (offerTopic "1234") (RawMsg.descMsg ⟨"o"⟩)]).remoteDescSet = true := by
  constructor
  · exact (joiner_two_phase_exchange "1234" ⟨"sdp"⟩ [JoinerEvent.connect]).2.1
      (by decide) ⟨joinTopic "1234", "hello"⟩ (by decide)
  · exact ((joiner_two_phase_exchange "1234" ⟨"sdp"⟩
      [JoinerEvent.connect,
       JoinerEvent.recv (offerTopic "1234") (RawMsg.descMsg ⟨"o"⟩)]).2.2
      ⟨⟨answerTopic "1234", "sdp"⟩, by decide, rfl⟩).1

/-- Claim C5: generated room codes are integers in [1000, 9999] whose
decimal form has four digits; joining is a no-op (no session saved, no
connection attempted) for entered codes whose length is not 4; and every
relay topic subscribed or published by host or joiner is of the form
chkobba/<code>/join, offer, answer, or restart. -/
theorem cloud_codes_and_topics :
    (∀ r : ℚ, 0 ≤ r → r < 1 →
      1000 ≤ genCode r ∧ genCode r ≤ 9999 ∧ decimalDigitCount (genCode r).toNat = 4)
  ∧ (∀ inputCode : String, ∀ now : Int, inputCode.length ≠ 4 →
      joinCloudGame inputCode now = ⟨none, none⟩)
  ∧ (∀ code t, t ∈ hostSubscriptions code ++ joinerSubscriptions code → roomTopicForm code t)
  ∧ (∀ code isRec s p, p ∈ (hostOnConnect code isRec s).published →
      p ∈ s.published ∨ roomTopicForm code p.topic)
  ∧ (∀ code d s events p, p ∈ (hostRun code d s events).published →
      p ∈ s.published ∨ roomTopicForm code p.topic)
  ∧ (∀ code answer events p, p ∈ (joinerRun code answer events).published →
      roomTopicForm code p.topic) := by
  refine ⟨?_, ?_, ?_, ?_, ?_, ?_⟩
  · intro r h0 h1
    have hge : (1000 : ℤ) ≤ genCode r := by
      rw [genCode, Int.le_floor]
      push_cast
      nlinarith
    have hlt : genCode r < 10000 := by
      rw [genCode, Int.floor_lt]
      push_cast
      nlinarith
    refine ⟨hge, by omega, ?_⟩
    have h1000 : 1000 ≤ (genCode r).toNat := by omega
    have h10000 : (genCode r).toNat < 10000 := by omega
    rw [decimalDigitCount, Nat.digits_len 10 _ (by norm_num) (by omega)]
    have hlog : Nat.log 10 (genCode r).toNat = 3 :=
      Nat.log_eq_of_pow_le_of_lt_pow (by norm_num; omega) (by norm_num; omega)
    omega
  · intro inputCode now h
    simp [joinCloudGame, h]
  · intro code t ht
    simp only [hostSubscriptions, joinerSubscriptions, List.mem_append, List.mem_cons,
      List.mem_singleton, List.not_mem_nil, or_false] at ht
    unfold roomTopicForm
    tauto
  · intro code isRec s p hp
    simp only [hostOnConnect] at hp
    rcases List.mem_append.mp hp with h | h
    · exact Or.inl h
    · right
      cases isRec with
      | true =>
        simp only [if_true, List.mem_singleton] at h
        rw [h]
        exact Or.inr (Or.inr (Or.inr rfl))
      | false => simp at h
  · intro code d s events p hp
    rcases hostRun_published code d events s p hp with h | h
    · exact Or.inl h
    · exact Or.inr (Or.inr (Or.inl h))
  · intro code answer events p hp
    rcases joinerFold_published code answer events initJoiner p hp with h | h | h
    · simp [initJoiner] at h
    · exact Or.inl h
    · exact Or.inr (Or.inr (Or.inl h))

/-- Witness for the cloud code and topic facts at concrete inputs. -/
theorem cloud_codes_and_topics_witness :
    (1000 ≤ genCode (1/2) ∧ genCode (1/2) ≤ 9999
      ∧ decimalDigitCount (genCode (1/2)).toNat = 4)
  ∧ joinCloudGame "123" 0 = ⟨none, none⟩
  ∧ roomTopicForm "1234" (joinTopic "1234")
  ∧ roomTopicForm "1234" (⟨restartTopic "1234", "host_back"⟩ : PubRec).topic
  ∧ roomTopicForm "9" (⟨joinTopic "9", "hello"⟩ : PubRec).topic := by
  obtain ⟨h1, h2, h3, h4, -, h6⟩ := cloud_codes_and_topics
  refine ⟨h1 (1/2) (by norm_num) (by norm_num), h2 "123" 0 (by decide),
    h3 "1234" (joinTopic "1234") (by decide), ?_, ?_⟩
  · exact (h4 "1234" true ⟨[], SignalingState.stable, false⟩
      ⟨restartTopic "1234", "host_back"⟩ (by decide)).resolve_left (by decide)
  · exact h6 "9" ⟨"sdp"⟩ [JoinerEvent.connect] ⟨joinTopic "9", "hello"⟩ (by decide)

/-- Claim C6 fails as stated: a relay message on the offer topic that is
not valid JSON escapes the joiner's message handler as an exception,
because App.tsx parses it outside any try/catch. -/
theorem malformed_offer_escapes_handler :
    joinerHandle "1234" ⟨"sdp"⟩ initJoiner
      (JoinerEvent.recv (offerTopic "1234") (RawMsg.notJson "garbage")) = .error () := by
  rfl

/-- Claim C6 (amended): malformed or unrecognized messages on the peer data
channel are swallowed leaving the strokes list unchanged, and the host's
relay answer handler likewise swallows a malformed answer; the joiner's
relay handler, however, lets a parse exception escape on a malformed offer
message, the event loop then dropping it with the joiner state, and in
particular the strokes list, left unchanged. -/
theorem malformed_message_handling (strokes : List Stroke) (raw : String)
    (mtype : String) (stroke? : Option Stroke) (t code : String) (d : Desc)
    (hs : HostState) (js : JoinerState) (answer : Desc) :
    dcOnMessage strokes (RawData.notJson raw) = (strokes, [])
  ∧ (mtype ∉ (["SYNC_STROKE", "CLEAR_BOARD", "PING"] : List String) →
      dcOnMessage strokes (RawData.json mtype stroke?) = (strokes, []))
  ∧ (strEndsWith t "/join" = false → strEndsWith t "/restart" = false →
      hostOnMessage code d hs t (RawMsg.notJson raw) = hs)
  ∧ (strEndsWith t "/restart" = false → strEndsWith t "/offer" = true →
      joinerHandle code answer js (JoinerEvent.recv t (RawMsg.notJson raw)) = .error ()
      ∧ joinerStep code answer js (JoinerEvent.recv t (RawMsg.notJson raw)) = js) := by
  refine ⟨rfl, ?_, ?_, ?_⟩
  · intro h
    simp only [List.mem_cons, List.not_mem_nil, or_false, not_or] at h
    obtain ⟨h1, h2, h3⟩ := h
    simp [dcOnMessage, h1, h2, h3]
  · intro hj hr
    simp [hostOnMessage, hostJoinBranch, hostAnswerBranch, hj, hr]
  · intro hr ho
    exact ⟨joinerHandle_offer_notJson code answer js t raw hr ho,
      joinerStep_error (joinerHandle_offer_notJson code answer js t raw hr ho)⟩

/-- Witness for the malformed-message behavior at concrete messages and
topics. -/
theorem malformed_message_handling_witness :
    dcOnMessage [demoStroke] (RawData.json "HEARTBEAT" none) = ([demoStroke], [])
  ∧ hostOnMessage "1" ⟨"sdp"⟩ ⟨[], SignalingState.haveLocalOffer, false⟩
      (answerTopic "1") (RawMsg.notJson "garbage")
      = ⟨[], SignalingState.haveLocalOffer, false⟩
  ∧ joinerStep "1" ⟨"sdp"⟩ initJoiner
      (JoinerEvent.recv (offerTopic "1") (RawMsg.notJson "garbage")) = initJoiner := by
  refine ⟨?_, ?_, ?_⟩
  · exact (malformed_message_handling [demoStroke] "garbage" "HEARTBEAT" none "x" "1"
      ⟨"sdp"⟩ ⟨[], SignalingState.haveLocalOffer, false⟩ initJoiner ⟨"sdp"⟩).2.1 (by decide)
  · exact (malformed_message_handling [demoStroke] "garbage" "HEARTBEAT" none
      (answerTopic "1") "1" ⟨"sdp"⟩ ⟨[], SignalingState.haveLocalOffer, false⟩
      initJoiner ⟨"sdp"⟩).2.2.1 (by decide) (by decide)
  · exact ((malformed_message_handling [demoStroke] "garbage" "HEARTBEAT" none
      (offerTopic "1") "1" ⟨"sdp"⟩ ⟨[], SignalingState.haveLocalOffer, false⟩
      initJoiner ⟨"sdp"⟩).2.2.2 (by decide) (by decide)).2

end Chkobba
